import Mathlib

/-!
Verification development for the Sophnet provider plugin (axdlee/sophnet).

The file shallowly embeds the four non-trivial client-side protocols of the
repository and proves the specified properties about them:

* `Sophnet.Poller`    — `SophnetSpeech2TextModel._poll_task_result`
  (src/models/speech2text/speech2text.py, lines 97-132);
* `Sophnet.Embedding` — `SophnetTextEmbeddingModel._invoke`
  (src/models/text_embedding/text_embedding.py, lines 44-86);
* `Sophnet.Tts`       — `SophnetText2SpeechModel._invoke` and
  `_invoke_streaming` (src/models/tts/tts.py, lines 96-144).

Text is modelled as `List Char`, bytes as `List Nat`.  External collaborators
(the HTTP transport, the remote service, the GPT-2 token estimator, the base
class sentence splitter) are parameters of the embedded functions, so the
theorems quantify over their behaviour.
-/

set_option autoImplicit false

namespace Sophnet

namespace Poller

/-- What one HTTP round trip of the polling loop produces, as observed by the
code of `_poll_task_result`.  `transportErr` covers every exception raised by
`requests.get`, `raise_for_status` or `response.json()` (connection failure,
non-2xx status, unparsable body); `body` is a successfully parsed JSON body,
with `status = data.get("status", "")`, `result` and `errorMsg` the optional
fields of the body. -/
inductive PollResp where
  | transportErr (msg : String)
  | body (status : String) (result : Option String) (errorMsg : Option String)

/-- Failure outcomes of `_poll_task_result`; each constructor corresponds to
one `raise InvokeBadRequestError(...)` site of the source.  `timedOut` carries
the seconds figure interpolated into the timeout message, which the source
computes as `max_retries * interval` with `interval` the current (final) value
of the mutated interval variable. -/
inductive PollError where
  | remoteFailure (msg : String)
  | unknownStatus (status : String)
  | transport (msg : String)
  | timedOut (reportedSeconds : Nat)
  deriving DecidableEq

/-- Result of a full run of `_poll_task_result`, instrumented with the number
of status requests issued (`polls`) and the list of `time.sleep` intervals
actually used, in order (`sleeps`). -/
structure PollOutcome where
  result : Except PollError String
  polls : Nat
  sleeps : List Nat

/-- Interval update at the end of the poll cycle with 0-based index `r`:
the source's `if retry > 10 and interval < 15: interval = min(interval + 1, 15)`
(speech2text.py lines 124-125). -/
def nextInterval (r interval : Nat) : Nat :=
  if 10 < r ∧ interval < 15 then min (interval + 1) 15 else interval

/-- True exactly when a poll response keeps the loop going: a parsed body whose
status is the recognized non-terminal `"waiting"` or `"doing"`. -/
def isNonterminal : PollResp → Bool
  | .body st _ _ => st = "waiting" ∨ st = "doing"
  | .transportErr _ => false

/-- One-for-one embedding of the `for retry in range(max_retries)` loop of
`_poll_task_result`.  `fuel` is the number of loop iterations remaining, `r`
the 0-based index of the current iteration and `interval` the current value of
the interval variable; `resp r` is what the status request of iteration `r`
yields.  The caller starts it with `fuel = maxRetries` and `r = 0`. -/
def pollAux (resp : Nat → PollResp) (maxRetries : Nat) :
    Nat → Nat → Nat → PollOutcome
  | 0, _, interval => ⟨.error (.timedOut (maxRetries * interval)), 0, []⟩
  | fuel + 1, r, interval =>
    match resp r with
    | .transportErr m => ⟨.error (.transport m), 1, []⟩
    | .body st res err =>
      if st = "success" then ⟨.ok (res.getD ""), 1, []⟩
      else if st = "failed" then
        ⟨.error (.remoteFailure (err.getD "Unknown error")), 1, []⟩
      else if st = "waiting" ∨ st = "doing" then
        let rest := pollAux resp maxRetries fuel (r + 1) (nextInterval r interval)
        ⟨rest.result, rest.polls + 1, interval :: rest.sleeps⟩
      else ⟨.error (.unknownStatus st), 1, []⟩

/-- Embedding of `_poll_task_result(credentials, task_id, max_retries=60,
interval=5)`: run the polling loop from iteration 0 with the given initial
interval. -/
def pollTaskResult (resp : Nat → PollResp) (maxRetries : Nat := 60)
    (interval : Nat := 5) : PollOutcome :=
  pollAux resp maxRetries maxRetries 0 interval

/-- The interval value in force at the start of cycle `r + k`, given that the
interval variable held `interval` at the start of cycle `r` and that every
cycle in between was non-terminal. -/
def intervalFrom (r interval : Nat) : Nat → Nat
  | 0 => interval
  | k + 1 => nextInterval (r + k) (intervalFrom r interval k)

theorem intervalFrom_succ_shift (r i k : Nat) :
    intervalFrom r i (k + 1) = intervalFrom (r + 1) (nextInterval r i) k := by
  induction k with
  | zero => rfl
  | succ k ih =>
    show nextInterval (r + (k + 1)) (intervalFrom r i (k + 1)) =
      nextInterval (r + 1 + k) (intervalFrom (r + 1) (nextInterval r i) k)
    rw [ih, show r + (k + 1) = r + 1 + k by omega]

theorem range_map_intervalFrom (r i t : Nat) :
    (List.range (t + 1)).map (intervalFrom r i) =
      i :: (List.range t).map (intervalFrom (r + 1) (nextInterval r i)) := by
  rw [List.range_succ_eq_map, List.map_cons, List.map_map]
  exact congrArg₂ List.cons rfl
    (congrArg₂ List.map (funext fun k => intervalFrom_succ_shift r i k) rfl)

theorem isNonterminal_cases (p : PollResp) (h : isNonterminal p = true) :
    ∃ res err, p = .body "waiting" res err ∨ p = .body "doing" res err := by
  cases p with
  | transportErr msg => simp [isNonterminal] at h
  | body st res err =>
    simp only [isNonterminal, decide_eq_true_eq] at h
    refine ⟨res, err, ?_⟩
    rcases h with h' | h'
    · exact Or.inl (by rw [h'])
    · exact Or.inr (by rw [h'])

theorem pollAux_zero (resp : Nat → PollResp) (m r i : Nat) :
    pollAux resp m 0 r i = ⟨.error (.timedOut (m * i)), 0, []⟩ := rfl

theorem pollAux_transport (resp : Nat → PollResp) (m fuel r i : Nat) (msg : String)
    (hre : resp r = .transportErr msg) :
    pollAux resp m (fuel + 1) r i = ⟨.error (.transport msg), 1, []⟩ := by
  simp [pollAux, hre]

theorem pollAux_success (resp : Nat → PollResp) (m fuel r i : Nat)
    (res err : Option String) (hre : resp r = .body "success" res err) :
    pollAux resp m (fuel + 1) r i = ⟨.ok (res.getD ""), 1, []⟩ := by
  simp [pollAux, hre]

theorem pollAux_failed (resp : Nat → PollResp) (m fuel r i : Nat)
    (res err : Option String) (hre : resp r = .body "failed" res err) :
    pollAux resp m (fuel + 1) r i =
      ⟨.error (.remoteFailure (err.getD "Unknown error")), 1, []⟩ := by
  simp [pollAux, hre]

theorem pollAux_unknown (resp : Nat → PollResp) (m fuel r i : Nat)
    (st : String) (res err : Option String) (hre : resp r = .body st res err)
    (h1 : st ≠ "success") (h2 : st ≠ "failed") (h3 : st ≠ "waiting")
    (h4 : st ≠ "doing") :
    pollAux resp m (fuel + 1) r i = ⟨.error (.unknownStatus st), 1, []⟩ := by
  simp [pollAux, hre, h1, h2, h3, h4]

theorem pollAux_step_nonterminal (resp : Nat → PollResp) (m fuel r i : Nat)
    (h : isNonterminal (resp r) = true) :
    pollAux resp m (fuel + 1) r i =
      ⟨(pollAux resp m fuel (r + 1) (nextInterval r i)).result,
       (pollAux resp m fuel (r + 1) (nextInterval r i)).polls + 1,
       i :: (pollAux resp m fuel (r + 1) (nextInterval r i)).sleeps⟩ := by
  obtain ⟨res, err, hre | hre⟩ := isNonterminal_cases _ h <;> simp [pollAux, hre]

/-- Running the loop across `d` consecutive non-terminal cycles records one
sleep per cycle (at the interval then in force) and continues from the state
`d` cycles later. -/
theorem pollAux_skip (resp : Nat → PollResp) (m : Nat) :
    ∀ (d fuel r i : Nat), d ≤ fuel →
    (∀ k, r ≤ k → k < r + d → isNonterminal (resp k) = true) →
    pollAux resp m fuel r i =
      ⟨(pollAux resp m (fuel - d) (r + d) (intervalFrom r i d)).result,
       (pollAux resp m (fuel - d) (r + d) (intervalFrom r i d)).polls + d,
       (List.range d).map (intervalFrom r i) ++
         (pollAux resp m (fuel - d) (r + d) (intervalFrom r i d)).sleeps⟩ := by
  intro d
  induction d with
  | zero => intro fuel r i _ _; simp [intervalFrom]
  | succ d ih =>
    intro fuel r i hd h
    cases fuel with
    | zero => omega
    | succ fuel =>
      have hnt : isNonterminal (resp r) = true := h r le_rfl (by omega)
      rw [pollAux_step_nonterminal resp m fuel r i hnt,
        ih fuel (r + 1) (nextInterval r i) (by omega)
          (fun k hk1 hk2 => h k (by omega) (by omega))]
      have e1 : fuel - d = fuel + 1 - (d + 1) := by omega
      have e2 : r + 1 + d = r + (d + 1) := by omega
      have e3 : intervalFrom (r + 1) (nextInterval r i) d = intervalFrom r i (d + 1) :=
        (intervalFrom_succ_shift r i d).symm
      rw [e1, e2, e3, range_map_intervalFrom]
      simp [Nat.add_assoc]

/-- Every sleep list a run of the poller can produce is an initial segment of
the deterministic interval schedule. -/
theorem pollAux_sleeps_range (resp : Nat → PollResp) (m : Nat) :
    ∀ (fuel r i : Nat), ∃ t,
      (pollAux resp m fuel r i).sleeps = (List.range t).map (intervalFrom r i) := by
  intro fuel
  induction fuel with
  | zero => intro r i; exact ⟨0, rfl⟩
  | succ fuel ih =>
    intro r i
    by_cases hnt : isNonterminal (resp r) = true
    · obtain ⟨t, ht⟩ := ih (r + 1) (nextInterval r i)
      refine ⟨t + 1, ?_⟩
      rw [pollAux_step_nonterminal resp m fuel r i hnt, range_map_intervalFrom]
      exact congrArg₂ List.cons rfl ht
    · refine ⟨0, ?_⟩
      cases hre : resp r with
      | transportErr msg => rw [pollAux_transport resp m fuel r i msg hre]; rfl
      | body st res err =>
        by_cases h1 : st = "success"
        · rw [h1] at hre; rw [pollAux_success resp m fuel r i res err hre]; rfl
        · by_cases h2 : st = "failed"
          · rw [h2] at hre; rw [pollAux_failed resp m fuel r i res err hre]; rfl
          · have h3 : st ≠ "waiting" := by
              rintro rfl; exact hnt (by rw [hre]; rfl)
            have h4 : st ≠ "doing" := by
              rintro rfl; exact hnt (by rw [hre]; rfl)
            rw [pollAux_unknown resp m fuel r i st res err hre h1 h2 h3 h4]; rfl

theorem le_nextInterval (r i : Nat) : i ≤ nextInterval r i := by
  unfold nextInterval; split <;> omega

theorem nextInterval_le (r i : Nat) (h : i ≤ 15) : nextInterval r i ≤ 15 := by
  unfold nextInterval; split <;> omega

theorem intervalFrom_le_15 (r i : Nat) (hi : i ≤ 15) (k : Nat) :
    intervalFrom r i k ≤ 15 := by
  induction k with
  | zero => exact hi
  | succ k ih => exact nextInterval_le _ _ ih

theorem intervalFrom_mono (r i : Nat) {j k : Nat} (h : j ≤ k) :
    intervalFrom r i j ≤ intervalFrom r i k := by
  induction k with
  | zero => simp_all
  | succ k ih =>
    rcases Nat.lt_or_ge j (k + 1) with hjk | hjk
    · exact le_trans (ih (by omega)) (le_nextInterval _ _)
    · have : j = k + 1 := by omega
      subst this; exact le_rfl

/-- A full run, rephrased from the state reached after `r` leading
non-terminal cycles. -/
theorem pollTaskResult_skip (resp : Nat → PollResp) (m i r : Nat) (hr : r ≤ m)
    (hpre : ∀ k, k < r → isNonterminal (resp k) = true) :
    pollTaskResult resp m i =
      ⟨(pollAux resp m (m - r) r (intervalFrom 0 i r)).result,
       (pollAux resp m (m - r) r (intervalFrom 0 i r)).polls + r,
       (List.range r).map (intervalFrom 0 i) ++
         (pollAux resp m (m - r) r (intervalFrom 0 i r)).sleeps⟩ := by
  have hskip := pollAux_skip resp m r m 0 i hr (fun k _ hk2 => hpre k (by omega))
  simpa [pollTaskResult] using hskip

/-- C1 (amended): when the poll with index `r` reports status `"success"`
after `r` non-terminal polls, `_poll_task_result` returns
`data.get("result", "")` on that same poll — the `result` field when present,
and the empty string (still a successful return, not an error) when the field
is absent. -/
theorem c1_success_returns_result_or_empty (resp : Nat → PollResp)
    (m i r : Nat) (res err : Option String) (hr : r < m)
    (hpre : ∀ k, k < r → isNonterminal (resp k) = true)
    (hre : resp r = .body "success" res err) :
    (pollTaskResult resp m i).result = .ok (res.getD "")
    ∧ (pollTaskResult resp m i).polls = r + 1 := by
  obtain ⟨fuel, hfuel⟩ : ∃ f, m - r = f + 1 := ⟨m - r - 1, by omega⟩
  rw [pollTaskResult_skip resp m i r (le_of_lt hr) hpre, hfuel,
    pollAux_success resp m fuel r (intervalFrom 0 i r) res err hre]
  exact ⟨rfl, by show 1 + r = r + 1; omega⟩

/-- C1 counterexample: a poll body with status `"success"` and no `result`
field makes the poller return the empty string as a successful result; it does
not fail with a protocol-violation error. -/
theorem c1_counterexample :
    (pollTaskResult (fun _ => .body "success" none none) 60 5).result
      = .ok "" := rfl

/-- C1 witness: the spec's example run `[waiting, doing, success]` with
`result = "X"` returns `"X"` after exactly 3 polls. -/
theorem c1_witness :
    (pollTaskResult
        (fun k => if k = 0 then .body "waiting" none none
          else if k = 1 then .body "doing" none none
          else .body "success" (some "X") none) 60 5).result = .ok "X"
    ∧ (pollTaskResult
        (fun k => if k = 0 then .body "waiting" none none
          else if k = 1 then .body "doing" none none
          else .body "success" (some "X") none) 60 5).polls = 3 :=
  c1_success_returns_result_or_empty
    (fun k => if k = 0 then .body "waiting" none none
      else if k = 1 then .body "doing" none none
      else .body "success" (some "X") none) 60 5 2 (some "X") none
    (by omega) (by decide) rfl

/-- C5 (amended): when every poll up to `maxAttempts` reports a non-terminal
status, the poller issues exactly `maxAttempts` status requests, sleeps once
per request following the interval schedule, and fails with `TimedOut`; the
diagnostic reports `maxAttempts * finalInterval` seconds (the final value of
the mutated interval variable), which is not in general the sum of the sleep
intervals actually used. -/
theorem c5_timeout (resp : Nat → PollResp) (m i : Nat)
    (h : ∀ k, k < m → isNonterminal (resp k) = true) :
    pollTaskResult resp m i =
      ⟨.error (.timedOut (m * intervalFrom 0 i m)), m,
       (List.range m).map (intervalFrom 0 i)⟩ := by
  rw [pollTaskResult_skip resp m i m le_rfl (fun k hk => h k hk), Nat.sub_self,
    pollAux_zero]
  simp

/-- C5 counterexample: with `maxAttempts = 13` and every status `"waiting"`,
the timeout diagnostic reports `13 * 7 = 91` seconds while the sleeps actually
used sum to `66` seconds, so the reported figure is not the elapsed wait. -/
theorem c5_counterexample :
    (pollTaskResult (fun _ => .body "waiting" none none) 13 5).result
        = .error (.timedOut 91)
    ∧ (pollTaskResult (fun _ => .body "waiting" none none) 13 5).sleeps.sum = 66
    ∧ 91 ≠ 66 :=
  ⟨rfl, by decide, by decide⟩

/-- C5 witness: the spec's example — all-`waiting` with `maxAttempts = 3` —
times out after exactly 3 polls, reporting `3 * 5 = 15` seconds. -/
theorem c5_witness :
    pollTaskResult (fun _ => .body "waiting" none none) 3 5 =
      ⟨.error (.timedOut (3 * intervalFrom 0 5 3)), 3,
       (List.range 3).map (intervalFrom 0 5)⟩ :=
  c5_timeout (fun _ => .body "waiting" none none) 3 5 (by decide)

/-- The backoff shape asserted by the claim, read off its wording: the sleep
at each of the first 10 attempts (indices 0-9) equals the base, and from
attempt 11 on (index 10 and later) each sleep is exactly one second longer
than the previous one, capped at 15. -/
def claimedBackoffSchedule (base : Nat) (s : List Nat) : Prop :=
  (∀ i, i < s.length → i < 10 → s.getD i 0 = base) ∧
  (∀ i, i < s.length → 10 ≤ i → s.getD i 0 = min (s.getD (i - 1) 0 + 1) 15)

instance (base : Nat) (s : List Nat) : Decidable (claimedBackoffSchedule base s) :=
  inferInstanceAs (Decidable (And _ _))

/-- C6 counterexample: in an all-`waiting` run with 14 polls the recorded
sleeps are `[5 ×12, 6, 7]` — the 11th and 12th sleeps still equal the base 5,
so the interval does not increase by 1 per cycle immediately after the first
10 attempts as the claim states. -/
theorem c6_counterexample :
    ¬ claimedBackoffSchedule 5
        ((pollTaskResult (fun _ => .body "waiting" none none) 14 5).sleeps) := by
  decide

/-- C6 (amended): every sleep sequence of one invocation is an initial segment
of the deterministic schedule `intervalFrom 0 5`, which is monotonically
non-decreasing, never exceeds the 15-second ceiling, stays at the base 5
through the first 12 attempts (the source only increases after `retry > 10`,
and the increase takes effect one sleep later), and from then on increases by
exactly 1 per cycle until the ceiling is reached. -/
theorem c6_backoff (resp : Nat → PollResp) (m : Nat) :
    (∃ t, (pollTaskResult resp m 5).sleeps = (List.range t).map (intervalFrom 0 5))
    ∧ (∀ j k, j ≤ k → intervalFrom 0 5 j ≤ intervalFrom 0 5 k)
    ∧ (∀ k, intervalFrom 0 5 k ≤ 15)
    ∧ (∀ k, k ≤ 11 → intervalFrom 0 5 k = 5)
    ∧ (∀ k, 11 ≤ k → intervalFrom 0 5 (k + 1) = min (intervalFrom 0 5 k + 1) 15) := by
  refine ⟨pollAux_sleeps_range resp m m 0 5,
    fun j k h => intervalFrom_mono 0 5 h,
    fun k => intervalFrom_le_15 0 5 (by omega) k, by decide, fun k hk => ?_⟩
  have h15 : intervalFrom 0 5 k ≤ 15 := intervalFrom_le_15 0 5 (by omega) k
  show nextInterval (0 + k) (intervalFrom 0 5 k) = _
  unfold nextInterval
  split <;> omega

/-- The boundary of the timeout diagnostic's accuracy: with the default base
interval 5, an all-non-terminal run of 11 attempts reports `11 * 5 = 55`
seconds, exactly the sum of its sleeps, while a run of 12 attempts already
over-reports — the interval is incremented at the end of retry index 11,
after the final sleep, so the raise reports `12 * 6 = 72` seconds against
60 seconds actually slept. -/
theorem timedOut_report_boundary :
    (pollTaskResult (fun _ => .body "waiting" none none) 11 5).result
        = .error (.timedOut 55)
    ∧ (pollTaskResult (fun _ => .body "waiting" none none) 11 5).sleeps.sum = 55
    ∧ (pollTaskResult (fun _ => .body "waiting" none none) 12 5).result
        = .error (.timedOut 72)
    ∧ (pollTaskResult (fun _ => .body "waiting" none none) 12 5).sleeps.sum = 60 :=
  ⟨rfl, by decide, rfl, by decide⟩

/-- C8: after `r` non-terminal polls, a transport-level failure (HTTP error,
non-2xx, unparsable body) or an unrecognized status string on poll `r` is
surfaced as a failure on that same cycle: the poller has then issued exactly
`r + 1` status requests and stops. -/
theorem c8_no_retry_on_error (resp : Nat → PollResp) (m i r : Nat) (hr : r < m)
    (hpre : ∀ k, k < r → isNonterminal (resp k) = true) :
    (∀ msg, resp r = .transportErr msg →
      (pollTaskResult resp m i).result = .error (.transport msg)
      ∧ (pollTaskResult resp m i).polls = r + 1)
    ∧ (∀ st res err, resp r = .body st res err → st ≠ "success" →
      st ≠ "failed" → st ≠ "waiting" → st ≠ "doing" →
      (pollTaskResult resp m i).result = .error (.unknownStatus st)
      ∧ (pollTaskResult resp m i).polls = r + 1) := by
  obtain ⟨fuel, hfuel⟩ : ∃ f, m - r = f + 1 := ⟨m - r - 1, by omega⟩
  constructor
  · intro msg hre
    rw [pollTaskResult_skip resp m i r (le_of_lt hr) hpre, hfuel,
      pollAux_transport resp m fuel r (intervalFrom 0 i r) msg hre]
    exact ⟨rfl, by show 1 + r = r + 1; omega⟩
  · intro st res err hre h1 h2 h3 h4
    rw [pollTaskResult_skip resp m i r (le_of_lt hr) hpre, hfuel,
      pollAux_unknown resp m fuel r (intervalFrom 0 i r) st res err hre h1 h2 h3 h4]
    exact ⟨rfl, by show 1 + r = r + 1; omega⟩

/-- C8 witness: a transport error on the second poll (after one `waiting`)
surfaces as a transport failure with exactly 2 requests issued, and an
unrecognized status on the first poll fails with exactly 1 request issued. -/
theorem c8_witness :
    ((pollTaskResult (fun k => if k = 0 then .body "waiting" none none
        else .transportErr "boom") 60 5).result = .error (.transport "boom")
      ∧ (pollTaskResult (fun k => if k = 0 then .body "waiting" none none
        else .transportErr "boom") 60 5).polls = 2)
    ∧ ((pollTaskResult (fun _ => .body "exploded" none none) 60 5).result
        = .error (.unknownStatus "exploded")
      ∧ (pollTaskResult (fun _ => .body "exploded" none none) 60 5).polls = 1) :=
  ⟨(c8_no_retry_on_error (fun k => if k = 0 then .body "waiting" none none
      else .transportErr "boom") 60 5 1 (by omega) (by decide)).1 "boom" rfl,
   (c8_no_retry_on_error (fun _ => .body "exploded" none none) 60 5 0
      (by omega) (by decide)).2 "exploded" none none rfl
      (by decide) (by decide) (by decide) (by decide)⟩

end Poller

namespace Embedding

/-- Input texts are modelled as character lists. -/
abbrev Text := List Char

/-- The parts of a successful embedding response body the code reads:
`data` is the list `[item["embedding"] for item in data.get("data", [])]`
(whatever its length), `usage` the optional `usage.total_tokens` figure
(`None`/missing both become 0 through `get(..., 0) or 0`). -/
structure EmbResponse where
  data : List (List Int)
  usage : Option Nat

/-- Result of `SophnetTextEmbeddingModel._invoke`, instrumented with the list
of per-request `input_texts` payloads actually issued, in order. -/
structure EmbOutcome where
  embeddings : List (List Int)
  totalTokens : Nat
  requests : List (List Text)

/-- Step 1 of `_invoke` (text_embedding.py lines 45-53): if the estimated
token count exceeds `context_size`, truncate to
`int(len(text) * context_size / num_tokens)` characters.  `numTokens` stands
for the external `_get_num_tokens_by_gpt2` estimator, which the spec only
constrains to be a stable token-counting function monotonic in length. -/
def truncateText (numTokens : Text → Nat) (contextSize : Nat) (t : Text) : Text :=
  if contextSize < numTokens t then t.take (t.length * contextSize / numTokens t)
  else t

/-- Fuel-driven version of the slicing loop
`for i in range(0, len(processed_texts), max_chunks)`. -/
def chunkAux {α : Type} (m : Nat) : Nat → List α → List (List α)
  | 0, _ => []
  | _, [] => []
  | fuel + 1, l => l.take m :: chunkAux m fuel (l.drop m)

/-- The batches `processed_texts[i:i+max_chunks]` in order (for `m > 0` the
fuel `l.length` is never exhausted before the list is). -/
def chunkList {α : Type} (m : Nat) (l : List α) : List (List α) :=
  chunkAux m l.length l

/-- The per-batch request/aggregation loop of `_invoke` (lines 59-77): one
remote call per batch; the response's embeddings are appended to the
aggregate as-is and its usage added; an exception from a call aborts the
whole invocation (`RuntimeError`). -/
def embedBatches (remote : List Text → Except String EmbResponse) :
    List (List Text) → Except String EmbOutcome
  | [] => .ok ⟨[], 0, []⟩
  | b :: bs =>
    match remote b with
    | .error e => .error e
    | .ok resp =>
      match embedBatches remote bs with
      | .error e => .error e
      | .ok rest =>
        .ok ⟨resp.data ++ rest.embeddings,
          resp.usage.getD 0 + rest.totalTokens, b :: rest.requests⟩

/-- Embedding of `SophnetTextEmbeddingModel._invoke`: truncate each text to
the token budget, partition into batches of at most `maxChunks`, then issue
one request per batch and aggregate. -/
def invokeEmbedding (numTokens : Text → Nat) (contextSize maxChunks : Nat)
    (remote : List Text → Except String EmbResponse) (texts : List Text) :
    Except String EmbOutcome :=
  embedBatches remote
    (chunkList maxChunks (texts.map (truncateText numTokens contextSize)))

theorem chunkAux_flatten {α : Type} (m : Nat) (hm : 0 < m) :
    ∀ (fuel : Nat) (l : List α), l.length ≤ fuel →
      (chunkAux m fuel l).flatten = l := by
  intro fuel
  induction fuel with
  | zero =>
    intro l hl
    have : l = [] := List.eq_nil_of_length_eq_zero (by omega)
    subst this; rfl
  | succ fuel ih =>
    intro l hl
    cases l with
    | nil => rfl
    | cons x xs =>
      show ((x :: xs).take m :: chunkAux m fuel ((x :: xs).drop m)).flatten
        = x :: xs
      rw [List.flatten_cons, ih ((x :: xs).drop m)
        (by rw [List.length_drop]; simp at hl ⊢; omega)]
      exact List.take_append_drop m (x :: xs)

theorem chunkAux_sizes {α : Type} (m : Nat) :
    ∀ (fuel : Nat) (l : List α), ∀ b ∈ chunkAux m fuel l, b.length ≤ m := by
  intro fuel
  induction fuel with
  | zero => intro l b hb; simp [chunkAux] at hb
  | succ fuel ih =>
    intro l b hb
    cases l with
    | nil => simp [chunkAux] at hb
    | cons x xs =>
      have hb' : b ∈ (x :: xs).take m :: chunkAux m fuel ((x :: xs).drop m) := hb
      rcases List.mem_cons.1 hb' with hb'' | hb''
      · subst hb''; simp [List.length_take]
      · exact ih _ _ hb''

theorem chunkAux_count {α : Type} (m : Nat) (hm : 0 < m) :
    ∀ (fuel : Nat) (l : List α), l.length ≤ fuel →
      (chunkAux m fuel l).length = (l.length + m - 1) / m := by
  intro fuel
  induction fuel with
  | zero =>
    intro l hl
    have h0 : l.length = 0 := by omega
    have : l = [] := List.eq_nil_of_length_eq_zero h0
    subst this
    show 0 = (0 + m - 1) / m
    rw [Nat.zero_add, Nat.div_eq_of_lt (by omega)]
  | succ fuel ih =>
    intro l hl
    cases l with
    | nil =>
      show 0 = (0 + m - 1) / m
      rw [Nat.zero_add, Nat.div_eq_of_lt (by omega)]
    | cons x xs =>
      show (chunkAux m fuel ((x :: xs).drop m)).length + 1
        = ((x :: xs).length + m - 1) / m
      rw [ih _ (by rw [List.length_drop]; simp at hl ⊢; omega),
        List.length_drop]
      have hn : 1 ≤ (x :: xs).length := by simp
      generalize (x :: xs).length = n at hn ⊢
      have e1 : n + m - 1 = (n - 1) + m := by omega
      rw [e1, Nat.add_div_right _ hm]
      rcases le_or_lt n m with hcase | hcase
      · have e2 : n - m = 0 := by omega
        rw [e2, Nat.zero_add, Nat.div_eq_of_lt (by omega),
          Nat.div_eq_of_lt (by omega)]
      · have e3 : n - m + m - 1 = (n - m - 1) + m := by omega
        rw [e3, Nat.add_div_right _ hm]
        have e4 : n - m - 1 = n - 1 - m := by omega
        have e5 : n - 1 = (n - 1 - m) + m := by omega
        rw [e4]
        conv_rhs => rw [e5, Nat.add_div_right _ hm]

theorem embedBatches_ok (remoteOk : List Text → EmbResponse) :
    ∀ bs : List (List Text),
    embedBatches (fun b => .ok (remoteOk b)) bs =
      .ok ⟨(bs.map (fun b => (remoteOk b).data)).flatten,
        (bs.map (fun b => (remoteOk b).usage.getD 0)).sum, bs⟩ := by
  intro bs
  induction bs with
  | nil => rfl
  | cons b bs ih => simp [embedBatches, ih]

/-- C2 counterexample: a batch of two texts answered with a single embedding
vector is silently accepted — the invocation succeeds, aggregating the lone
vector, instead of failing with a protocol error. -/
theorem c2_counterexample :
    invokeEmbedding List.length 10 10 (fun _ => Except.ok ⟨[[1]], some 2⟩)
        [['a'], ['b']]
      = .ok ⟨[[1]], 2, [[['a'], ['b']]]⟩ := rfl

/-- C2 (amended): for every remote that answers each batch, `_invoke`
succeeds and extends the aggregate with exactly the vectors each response
returns, without comparing their number to the batch size — a count mismatch
is silently accepted, never turned into an error. -/
theorem c2_mismatch_accepted (numTokens : Text → Nat) (cs m : Nat)
    (remoteOk : List Text → EmbResponse) (texts : List Text) :
    invokeEmbedding numTokens cs m (fun b => .ok (remoteOk b)) texts =
      .ok ⟨((chunkList m (texts.map (truncateText numTokens cs))).map
              (fun b => (remoteOk b).data)).flatten,
           ((chunkList m (texts.map (truncateText numTokens cs))).map
              (fun b => (remoteOk b).usage.getD 0)).sum,
           chunkList m (texts.map (truncateText numTokens cs))⟩ :=
  embedBatches_ok remoteOk _

/-- C3 (amended): over-budget texts are truncated to
`floor(len * contextSize / numTokens)` characters and within-budget texts are
left unchanged; a non-empty text truncates to a non-empty text exactly when
`numTokens t ≤ len(t) * contextSize` — an estimator charging more than
`contextSize` tokens per character can truncate a non-empty text to empty. -/
theorem c3_truncation (numTokens : Text → Nat) (cs : Nat) (t : Text) :
    (cs < numTokens t →
      truncateText numTokens cs t = t.take (t.length * cs / numTokens t))
    ∧ (numTokens t ≤ cs → truncateText numTokens cs t = t)
    ∧ (t ≠ [] → numTokens t ≤ t.length * cs →
        truncateText numTokens cs t ≠ []) := by
  refine ⟨fun h => by simp [truncateText, h],
    fun h => by simp [truncateText, Nat.not_lt.2 h], fun hne hle => ?_⟩
  unfold truncateText
  split
  · next hlt =>
      have hpos : 0 < numTokens t := by omega
      have h1 : 1 ≤ t.length * cs / numTokens t := (Nat.one_le_div_iff hpos).2 hle
      simp only [ne_eq, List.take_eq_nil_iff]
      push_neg
      exact ⟨by omega, hne⟩
  · exact hne

/-- C3 witness: with estimator `2 * length` and budget 3, the four-character
text `"abcd"` (8 estimated tokens) is truncated to `floor(4*3/8) = 1`
character and stays non-empty. -/
theorem c3_witness :
    truncateText (fun l => 2 * l.length) 3 ['a', 'b', 'c', 'd']
        = List.take (4 * 3 / 8) ['a', 'b', 'c', 'd']
    ∧ truncateText (fun l => 2 * l.length) 3 ['a', 'b', 'c', 'd'] ≠ [] :=
  ⟨(c3_truncation (fun l => 2 * l.length) 3 ['a', 'b', 'c', 'd']).1 (by decide),
   (c3_truncation (fun l => 2 * l.length) 3 ['a', 'b', 'c', 'd']).2.2
      (by decide) (by decide)⟩

/-- C3 counterexample: under a monotone estimator charging 4 tokens per
character and a budget of 2, the non-empty text `"a"` (4 estimated tokens,
over budget) is truncated to `floor(1*2/4) = 0` characters — the empty
text — so truncation does not preserve non-emptiness in general. -/
theorem c3_counterexample :
    truncateText (fun l => 4 * l.length) 2 ['a'] = [] ∧ (['a'] : Text) ≠ [] :=
  ⟨rfl, by decide⟩

/-- C4: with `maxBatchSize = m > 0`, `_invoke` issues exactly
`ceil(n/m) = (n + m - 1) / m` batch requests whose payloads partition the
processed texts in original order with every batch of size at most `m`, and
the aggregated vector sequence is the in-order concatenation of the
per-batch vectors, of length `n` when every batch answers one vector per
input. -/
theorem c4_batching (numTokens : Text → Nat) (cs m : Nat)
    (remoteOk : List Text → EmbResponse) (texts : List Text) (hm : 0 < m) :
    (chunkList m (texts.map (truncateText numTokens cs))).length
        = (texts.length + m - 1) / m
    ∧ (∀ b ∈ chunkList m (texts.map (truncateText numTokens cs)), b.length ≤ m)
    ∧ (chunkList m (texts.map (truncateText numTokens cs))).flatten
        = texts.map (truncateText numTokens cs)
    ∧ ∃ out, invokeEmbedding numTokens cs m (fun b => .ok (remoteOk b)) texts
          = .ok out
        ∧ out.requests = chunkList m (texts.map (truncateText numTokens cs))
        ∧ out.embeddings = ((chunkList m (texts.map (truncateText numTokens cs))).map
            (fun b => (remoteOk b).data)).flatten
        ∧ ((∀ b ∈ chunkList m (texts.map (truncateText numTokens cs)),
              (remoteOk b).data.length = b.length) →
            out.embeddings.length = texts.length) := by
  have hflat : (chunkList m (texts.map (truncateText numTokens cs))).flatten
      = texts.map (truncateText numTokens cs) :=
    chunkAux_flatten m hm (texts.map (truncateText numTokens cs)).length
      (texts.map (truncateText numTokens cs)) le_rfl
  refine ⟨?_, fun b hb => chunkAux_sizes m _ _ b hb, hflat, ?_⟩
  · show (chunkAux m (texts.map (truncateText numTokens cs)).length
        (texts.map (truncateText numTokens cs))).length = _
    rw [chunkAux_count m hm _ _ le_rfl, List.length_map]
  · refine ⟨_, embedBatches_ok remoteOk _, rfl, rfl, fun hcount => ?_⟩
    rw [List.length_flatten, List.map_map]
    have : (chunkList m (texts.map (truncateText numTokens cs))).map
        (List.length ∘ fun b => (remoteOk b).data)
        = (chunkList m (texts.map (truncateText numTokens cs))).map List.length :=
      List.map_congr_left fun b hb => hcount b hb
    rw [this, ← List.length_flatten, hflat, List.length_map]

/-- C4 witness: with `maxBatchSize = 2` and 5 inputs the batcher issues
exactly `(5 + 2 - 1) / 2 = 3` requests of sizes `[2, 2, 1]`. -/
theorem c4_witness :
    (chunkList 2 ([(['v'] : Text), ['w'], ['x'], ['y'], ['z']].map
        (truncateText (fun _ => 0) 8192))).map List.length = [2, 2, 1]
    ∧ (chunkList 2 ([(['v'] : Text), ['w'], ['x'], ['y'], ['z']].map
        (truncateText (fun _ => 0) 8192))).length = (5 + 2 - 1) / 2 :=
  ⟨by decide,
   (c4_batching (fun _ => 0) 8192 2
      (fun b => ⟨b.map (fun _ => ([] : List Int)), none⟩)
      [['v'], ['w'], ['x'], ['y'], ['z']] (by decide)).1⟩

end Embedding

namespace Tts

/-- The sentence list built by `SophnetText2SpeechModel._invoke`
(tts.py lines 96-99) and passed as the request's `"text"` field: texts longer
than 500 characters are delegated to `_split_text_into_sentences` (a base
class collaborator, modelled as the parameter `splitter`); any other text is
wrapped as the single chunk `[content_text]`. -/
def ttsSentences (splitter : List Char → List (List Char)) (text : List Char) :
    List (List Char) :=
  if 500 < text.length then splitter text else [text]

/-- JSON values as produced by Python's `json.loads`, restricted to the shapes
the streaming protocol uses: one-level objects whose values are strings,
integers, booleans or null, and the same scalars at top level.  Nested
containers, floats and escape sequences are outside the model; the modelled
parser rejects them. -/
inductive JVal where
  | jstr (s : List Char)
  | jnum (n : Int)
  | jbool (b : Bool)
  | jnull
  | jobj (fields : List (List Char × JVal))

def isWs (c : Char) : Bool :=
  c = ' ' ∨ c = '\t' ∨ c = '\n' ∨ c = '\r'

def skipWs : List Char → List Char
  | [] => []
  | c :: cs => if isWs c then skipWs cs else c :: cs

/-- Parse the remainder of a JSON string after its opening quote; escape
sequences are outside the modelled grammar and make the parse fail. -/
def parseStringBody : List Char → Option (List Char × List Char)
  | [] => none
  | c :: cs =>
    if c = '"' then some ([], cs)
    else if c = '\\' then none
    else
      match parseStringBody cs with
      | some (s, rest) => some (c :: s, rest)
      | none => none

def parseDigits : List Char → List Char × List Char
  | [] => ([], [])
  | c :: cs =>
    if c.isDigit then
      match parseDigits cs with
      | (ds, rest) => (c :: ds, rest)
    else ([], c :: cs)

def digitsToNat (ds : List Char) : Nat :=
  ds.foldl (fun a c => 10 * a + (c.toNat - 48)) 0

/-- A numeric literal must not continue with a fraction or exponent
(floats are outside the modelled grammar). -/
def numberStops : List Char → Bool
  | [] => true
  | c :: _ => ¬ (c = '.' ∨ c = 'e' ∨ c = 'E')

def parseScalar : List Char → Option (JVal × List Char)
  | [] => none
  | '"' :: rest =>
    match parseStringBody rest with
    | some (s, r2) => some (.jstr s, r2)
    | none => none
  | 't' :: 'r' :: 'u' :: 'e' :: rest => some (.jbool true, rest)
  | 'f' :: 'a' :: 'l' :: 's' :: 'e' :: rest => some (.jbool false, rest)
  | 'n' :: 'u' :: 'l' :: 'l' :: rest => some (.jnull, rest)
  | '-' :: rest =>
    match parseDigits rest with
    | ([], _) => none
    | (ds, r2) =>
      if numberStops r2 then some (.jnum (-(digitsToNat ds : Int)), r2) else none
  | c :: rest =>
    if c.isDigit then
      match parseDigits (c :: rest) with
      | (ds, r2) =>
        if numberStops r2 then some (.jnum (digitsToNat ds), r2) else none
    else none

/-- Parse the members of a JSON object after its opening brace, consuming the
closing brace; member values are scalars (the modelled grammar is flat). -/
def parseMembers : Nat → List Char → Option (List (List Char × JVal) × List Char)
  | 0, _ => none
  | fuel + 1, s =>
    match s with
    | '"' :: rest =>
      match parseStringBody rest with
      | none => none
      | some (key, r2) =>
        match skipWs r2 with
        | ':' :: r3 =>
          match parseScalar (skipWs r3) with
          | none => none
          | some (v, r4) =>
            match skipWs r4 with
            | ',' :: r5 =>
              match parseMembers fuel (skipWs r5) with
              | some (fs, r6) => some ((key, v) :: fs, r6)
              | none => none
            | '\x7d' :: r5 => some ([(key, v)], r5)
            | _ => none
        | _ => none
    | _ => none

/-- Model of `json.loads` on the flat grammar: the whole input, modulo
surrounding whitespace, must be one object or one scalar; `none` stands for
`json.JSONDecodeError`. -/
def parseJson (s : List Char) : Option JVal :=
  match skipWs s with
  | '\x7b' :: rest =>
    match skipWs rest with
    | '\x7d' :: r2 => if skipWs r2 = [] then some (.jobj []) else none
    | r1 =>
      match parseMembers (s.length + 1) r1 with
      | some (fs, r2) => if skipWs r2 = [] then some (.jobj fs) else none
      | none => none
  | other =>
    match parseScalar other with
    | some (v, rest) => if skipWs rest = [] then some v else none
    | none => none

/-- Value of a character in the standard base64 alphabet. -/
def b64val (c : Char) : Option Nat :=
  if 'A' ≤ c ∧ c ≤ 'Z' then some (c.toNat - 65)
  else if 'a' ≤ c ∧ c ≤ 'z' then some (c.toNat - 71)
  else if '0' ≤ c ∧ c ≤ '9' then some (c.toNat + 4)
  else if c = '+' then some 62
  else if c = '/' then some 63
  else none

def b64keep (c : Char) : Bool := (b64val c).isSome || c = '='

/-- Decode a base64 character sequence four characters at a time, honouring
`=` padding only at the end; `none` stands for `binascii.Error` (raised by
`base64.b64decode` when the data characters do not form whole groups, e.g.
"aGk" — incorrect padding). -/
def b64quads : List Char → Option (List Nat)
  | [] => some []
  | a :: b :: c :: d :: rest =>
    match b64val a, b64val b with
    | some va, some vb =>
      if c = '=' then
        if d = '=' ∧ rest = [] then some [va * 4 + vb / 16] else none
      else
        match b64val c with
        | some vc =>
          if d = '=' then
            if rest = [] then some [va * 4 + vb / 16, (vb % 16) * 16 + vc / 4]
            else none
          else
            match b64val d with
            | some vd =>
              match b64quads rest with
              | some bs => some ((va * 4 + vb / 16) :: ((vb % 16) * 16 + vc / 4)
                  :: ((vc % 4) * 64 + vd) :: bs)
              | none => none
            | none => none
        | none => none
    | _, _ => none
  | _ => none

/-- Model of `base64.b64decode` with its default `validate=False`: characters
outside the alphabet (and outside `=`) are discarded before decoding, so some
strings that are not valid base64 still decode without error — `"!"` decodes
to `b""`. -/
def b64decode (s : List Char) : Option (List Nat) :=
  b64quads (s.filter b64keep)

/-- What processing one line of `_invoke_streaming`'s response does
(tts.py lines 128-141): nothing (`skip`, the loop continues), one yielded
frame (`emit`), or an exception that escapes the per-line
`except json.JSONDecodeError` handler and aborts the stream (`abort`). -/
inductive LineStep where
  | skip
  | emit (bytes : List Nat)
  | abort
  deriving DecidableEq

def audioFrameKey : List Char :=
  ['a', 'u', 'd', 'i', 'o', 'F', 'r', 'a', 'm', 'e']

/-- Python truthiness of a JSON value, as used by `data['audioFrame']` in the
condition `if 'audioFrame' in data and data['audioFrame']`. -/
def jTruthy : JVal → Bool
  | .jstr s => !s.isEmpty
  | .jnum n => n ≠ 0
  | .jbool b => b
  | .jnull => false
  | .jobj fs => !fs.isEmpty

/-- Python dict lookup (duplicate keys: last one wins). -/
def lookupLast (key : List Char) (fs : List (List Char × JVal)) : Option JVal :=
  fs.reverse.lookup key

/-- Whether `needle` occurs as a contiguous subsequence: the substring test
performed by Python's `'audioFrame' in data` when `data` is a string. -/
def hasInfix (needle : List Char) : List Char → Bool
  | [] => needle.isEmpty
  | c :: cs => needle.isPrefixOf (c :: cs) || hasInfix needle cs

def dataPrefix : List Char := ['d', 'a', 't', 'a', ':']

/-- One-for-one embedding of the body of the `for line in
response.iter_lines(...)` loop: empty lines and lines without the `data:`
prefix are passed over; on a `data:` line the remainder `line[5:]` is parsed
as JSON (a failure is caught and skipped); an object with a truthy
`audioFrame` member has it base64-decoded and yielded.  A truthy non-string
member, a non-container at top level reached by `'audioFrame' in data`, or a
base64 error raise exceptions the handler does not catch, aborting the
stream. -/
def lineStep (line : List Char) : LineStep :=
  if line = [] then .skip
  else if dataPrefix.isPrefixOf line then
    match parseJson (line.drop 5) with
    | none => .skip
    | some (.jobj fs) =>
      match lookupLast audioFrameKey fs with
      | none => .skip
      | some v =>
        if jTruthy v then
          match v with
          | .jstr s =>
            match b64decode s with
            | some bs => .emit bs
            | none => .abort
          | _ => .abort
        else .skip
    | some (.jstr s) => if hasInfix audioFrameKey s then .abort else .skip
    | some _ => .abort
  else .skip

/-- Outcome of the whole streaming loop on a list of response lines: either
the stream ends normally with the frames yielded, or an uncaught exception
aborts it (re-raised as `InvokeBadRequestError`) after the frames yielded so
far. -/
inductive StreamResult where
  | ok (frames : List (List Nat))
  | badRequest (frames : List (List Nat))
  deriving DecidableEq

/-- Embedding of `_invoke_streaming`'s line loop over the received lines. -/
def decodeLines : List (List Char) → StreamResult
  | [] => .ok []
  | l :: ls =>
    match lineStep l with
    | .skip => decodeLines ls
    | .abort => .badRequest []
    | .emit bs =>
      match decodeLines ls with
      | .ok fs => .ok (bs :: fs)
      | .badRequest fs => .badRequest (bs :: fs)

/-- The frame a single line contributes, if any. -/
def lineFrame (l : List Char) : Option (List Nat) :=
  match lineStep l with
  | .emit bs => some bs
  | _ => none

/-- The spec's example line `data: {"audioFrame":"aGk="}`. -/
def hiLine : List Char :=
  ['d', 'a', 't', 'a', ':', ' ', '\x7b', '"', 'a', 'u', 'd', 'i', 'o', 'F',
   'r', 'a', 'm', 'e', '"', ':', '"', 'a', 'G', 'k', '=', '"', '\x7d']

/-- The spec's example line `data: not-json`. -/
def notJsonLine : List Char :=
  ['d', 'a', 't', 'a', ':', ' ', 'n', 'o', 't', '-', 'j', 's', 'o', 'n']

/-- The line `data: {"audioFrame":"!"}`: well-formed JSON whose audioFrame
value is not valid base64, but decodes to `b""` under Python's lenient
decoder. -/
def bangLine : List Char :=
  ['d', 'a', 't', 'a', ':', ' ', '\x7b', '"', 'a', 'u', 'd', 'i', 'o', 'F',
   'r', 'a', 'm', 'e', '"', ':', '"', '!', '"', '\x7d']

/-- The line `data: {"audioFrame":"aGk"}`: well-formed JSON whose audioFrame
value makes `base64.b64decode` raise (three data characters — incorrect
padding). -/
def badPadLine : List Char :=
  ['d', 'a', 't', 'a', ':', ' ', '\x7b', '"', 'a', 'u', 'd', 'i', 'o', 'F',
   'r', 'a', 'm', 'e', '"', ':', '"', 'a', 'G', 'k', '"', '\x7d']

theorem lineStep_not_data (l : List Char)
    (h : ¬ dataPrefix.isPrefixOf l = true) : lineStep l = .skip := by
  by_cases h0 : l = [] <;> simp [lineStep, h0, h]

theorem dataPrefix_ne_nil (l : List Char)
    (hpfx : dataPrefix.isPrefixOf l = true) : l ≠ [] := by
  intro h0
  subst h0
  exact absurd hpfx (by decide)

theorem lineStep_bad_json (l : List Char)
    (hpfx : dataPrefix.isPrefixOf l = true)
    (hparse : parseJson (l.drop 5) = none) : lineStep l = .skip := by
  simp [lineStep, dataPrefix_ne_nil l hpfx, hpfx, hparse]

theorem lineStep_audio (l : List Char) (fs : List (List Char × JVal))
    (s : List Char) (bs : List Nat)
    (hpfx : dataPrefix.isPrefixOf l = true)
    (hparse : parseJson (l.drop 5) = some (.jobj fs))
    (hlook : lookupLast audioFrameKey fs = some (.jstr s)) (hne : s ≠ [])
    (hb64 : b64decode s = some bs) : lineStep l = .emit bs := by
  simp [lineStep, dataPrefix_ne_nil l hpfx, hpfx, hparse, hlook, jTruthy, hne,
    hb64]

theorem lineStep_abort_b64 (l : List Char) (fs : List (List Char × JVal))
    (s : List Char)
    (hpfx : dataPrefix.isPrefixOf l = true)
    (hparse : parseJson (l.drop 5) = some (.jobj fs))
    (hlook : lookupLast audioFrameKey fs = some (.jstr s)) (hne : s ≠ [])
    (hb64 : b64decode s = none) : lineStep l = .abort := by
  simp [lineStep, dataPrefix_ne_nil l hpfx, hpfx, hparse, hlook, jTruthy, hne,
    hb64]

/-- A stream in which no line raises decodes to the frames of its lines, in
order. -/
theorem decodeLines_no_abort (ls : List (List Char))
    (h : ∀ l ∈ ls, lineStep l ≠ .abort) :
    decodeLines ls = .ok (ls.filterMap lineFrame) := by
  induction ls with
  | nil => rfl
  | cons x xs ih =>
    have hx : lineStep x ≠ .abort := h x (List.mem_cons_self x xs)
    have ih' := ih fun l hl => h l (List.mem_cons_of_mem x hl)
    simp only [decodeLines]
    split
    · next heq =>
        rw [ih', List.filterMap_cons]
        simp [lineFrame, heq]
    · next heq => exact absurd heq hx
    · next bs heq =>
        rw [ih']
        simp [lineFrame, heq, List.filterMap_cons]

/-- A line that raises aborts the whole stream: the frames emitted before it
are followed by the failure, and the lines after it are never reached. -/
theorem decodeLines_abort_at (pre post : List (List Char)) (l : List Char)
    (hpre : ∀ x ∈ pre, lineStep x ≠ .abort) (habort : lineStep l = .abort) :
    decodeLines (pre ++ l :: post) = .badRequest (pre.filterMap lineFrame) := by
  induction pre with
  | nil => simp [decodeLines, habort]
  | cons x xs ih =>
    have hx : lineStep x ≠ .abort := hpre x (List.mem_cons_self x xs)
    have ih' := ih fun y hy => hpre y (List.mem_cons_of_mem x hy)
    rw [List.cons_append]
    simp only [decodeLines]
    split
    · next heq =>
        rw [ih', List.filterMap_cons]
        simp [lineFrame, heq]
    · next heq => exact absurd heq hx
    · next bs heq =>
        rw [ih']
        simp [lineFrame, heq, List.filterMap_cons]

/-- C9: for every input of at most 500 characters the orchestrator does not
split the text — the synthesis request's `"text"` field is the single chunk
equal to the input; only longer texts are delegated to the sentence
splitter. -/
theorem c9_short_text_single_chunk (splitter : List Char → List (List Char))
    (text : List Char) (h : text.length ≤ 500) :
    ttsSentences splitter text = [text] := by
  unfold ttsSentences
  rw [if_neg (by omega)]

/-- C9 witness: the two-character text `"hi"` is sent as the single chunk
`["hi"]` whatever the splitter would do. -/
theorem c9_witness :
    ttsSentences (fun _ => []) ['h', 'i'] = [['h', 'i']] :=
  c9_short_text_single_chunk (fun _ => []) ['h', 'i'] (by decide)

/-- C7: over any line sequence in which no line raises, the decoder yields
exactly the per-line frames in order without stopping; a line without the
`data:` prefix contributes nothing; a `data:` line with malformed JSON
contributes nothing; a `data:` line whose remainder is a JSON object with a
non-empty base64 `audioFrame` value contributes exactly one frame of its
decoded bytes.  On the spec's examples: `data: {"audioFrame":"aGk="}` yields
one frame with bytes `hi` (`[104, 105]`) and `data: not-json` is skipped. -/
theorem c7_frame_decoder (ls : List (List Char))
    (h : ∀ l ∈ ls, lineStep l ≠ .abort) :
    decodeLines ls = .ok (ls.filterMap lineFrame)
    ∧ (∀ l : List Char, ¬ dataPrefix.isPrefixOf l = true → lineFrame l = none)
    ∧ (∀ l : List Char, dataPrefix.isPrefixOf l = true →
        parseJson (l.drop 5) = none → lineFrame l = none)
    ∧ (∀ (l : List Char) (fs : List (List Char × JVal)) (s : List Char)
        (bs : List Nat), dataPrefix.isPrefixOf l = true →
        parseJson (l.drop 5) = some (.jobj fs) →
        lookupLast audioFrameKey fs = some (.jstr s) → s ≠ [] →
        b64decode s = some bs → lineFrame l = some bs)
    ∧ lineStep hiLine = .emit [104, 105]
    ∧ lineStep notJsonLine = .skip := by
  refine ⟨decodeLines_no_abort ls h,
    fun l hl => by simp [lineFrame, lineStep_not_data l hl],
    fun l h1 h2 => by simp [lineFrame, lineStep_bad_json l h1 h2],
    fun l fs s bs h1 h2 h3 h4 h5 => by
      simp [lineFrame, lineStep_audio l fs s bs h1 h2 h3 h4 h5],
    by decide, by decide⟩

/-- C7 witness: the stream `[data: {"audioFrame":"aGk="}, data: not-json,
ping]` decodes without stopping to the single frame `hi`. -/
theorem c7_witness :
    decodeLines [hiLine, notJsonLine, ['p', 'i', 'n', 'g']]
      = .ok [[104, 105]] :=
  ((c7_frame_decoder [hiLine, notJsonLine, ['p', 'i', 'n', 'g']]
      (by decide)).1).trans (by decide)

/-- C10 counterexample: the audioFrame value `"!"` is non-empty and not valid
base64, yet the decoder does not abort — Python's `b64decode` discards
non-alphabet characters, decodes `"!"` to `b""`, and the line yields an empty
frame while the stream continues to the next line. -/
theorem c10_counterexample :
    lineStep bangLine = .emit []
    ∧ decodeLines [bangLine, hiLine] = .ok [[], [104, 105]] := by
  exact ⟨by decide, by decide⟩

/-- C10 (amended): when the base64 decode of a non-empty `audioFrame` value
raises (its data characters do not form whole base64 groups, e.g. `"aGk"`),
the error escapes the per-line handler — which catches only JSON decode
errors — and aborts the entire stream as an `InvokeBadRequestError`, keeping
the frames already emitted and never reaching later lines; this contrasts
with malformed JSON, which is skipped.  However a non-empty value that is
merely not valid base64 need not abort: decoding discards foreign characters,
so a value like `"!"` yields a frame instead. -/
theorem c10_b64_abort (pre post : List (List Char)) (l : List Char)
    (fs : List (List Char × JVal)) (s : List Char)
    (hpre : ∀ x ∈ pre, lineStep x ≠ .abort)
    (hpfx : dataPrefix.isPrefixOf l = true)
    (hparse : parseJson (l.drop 5) = some (.jobj fs))
    (hlook : lookupLast audioFrameKey fs = some (.jstr s)) (hne : s ≠ [])
    (hb64 : b64decode s = none) :
    decodeLines (pre ++ l :: post) = .badRequest (pre.filterMap lineFrame) :=
  decodeLines_abort_at pre post l hpre
    (lineStep_abort_b64 l fs s hpfx hparse hlook hne hb64)

/-- C10 witness: a stream with a good frame, then `data: {"audioFrame":"aGk"}`
(incorrect padding), then another good frame aborts at the bad line with the
first frame kept and the third line never decoded. -/
theorem c10_witness :
    decodeLines [hiLine, badPadLine, hiLine] = .badRequest [[104, 105]] :=
  (c10_b64_abort [hiLine] [hiLine] badPadLine
      [(audioFrameKey, .jstr ['a', 'G', 'k'])] ['a', 'G', 'k']
      (by decide) (by decide) (by rfl) (by rfl) (by decide) (by rfl)).trans
    (by decide)

end Tts

end Sophnet
